import Mathlib

/-!
Shallow embedding of the `Perf` hardware-performance-counter sampler
(`src/samplers/perf/mod.rs`): pool construction in `Perf::new`, the
`sample` / `register` / `deregister` lifecycle, and the recorder calls
they make, modelled as an explicit event trace. Platform effects
(counter creation, counter reads, the hardware thread count and the
captured timestamp) are oracle inputs.
-/

/-- Modelled from the spec: `PerfStatistic` is defined in
`src/samplers/perf/event.rs`, which is not among the available sources.
The spec describes a Statistic as an identifier for a countable hardware
event that must be usable as a map key with stable equality. We model it
as a natural-number identifier. -/
abbrev PerfStatistic := Nat

/-- Modelled from the spec: the `TRILLION` ceiling constant from the
framework common crate, "a large ceiling value representing the maximum
representable magnitude, e.g. 10^12". -/
def TRILLION : Nat := 1000000000000

/-- The configuration fields the sampler reads: `config.perf().enabled()`,
`config.perf().statistics()` and `config.general().window()`. -/
structure Config where
  perfEnabled : Bool
  perfStatistics : List PerfStatistic
  window : Nat
  deriving DecidableEq

/-- One observable interaction with the external recorder: the
`register_counter`, `record_counter` and `delete_channel` calls made by
the sampler, with the arguments the code passes. -/
inductive Event where
  | registerCh (stat : PerfStatistic) (max : Nat) (precision : Nat) (window : Nat)
  | record (stat : PerfStatistic) (time : Nat) (value : Nat)
  | deleteCh (stat : PerfStatistic)
  deriving DecidableEq

/-- Whether an event is a `record_counter` call. -/
def Event.isRecord : Event → Bool
  | .record _ _ _ => true
  | _ => false

/-- Whether an event is a `register_counter` call. -/
def Event.isRegisterCh : Event → Bool
  | .registerCh _ _ _ _ => true
  | _ => false

/-- The inner loop of `Perf::new` for one statistic: attempt
`statistic.builder().on_cpu(core).for_all_pids().finish()` for each core
index in order, pushing the created handle and stopping at the first
failure (the `break`). A created handle is identified by the core it is
bound to; `createOk s c` is the oracle telling whether creation succeeds
for statistic `s` on core `c`. -/
def tryCreateAll (createOk : PerfStatistic → Nat → Bool) (s : PerfStatistic) :
    List Nat → List Nat
  | [] => []
  | c :: rest => if createOk s c then c :: tryCreateAll createOk s rest else []

/-- The pool-construction loop of `Perf::new`: for each configured
statistic build `event_counters` over cores `0..cores`, and insert the
statistic into the map only when `event_counters.len() == cores`. -/
def buildPool (createOk : PerfStatistic → Nat → Bool) (cores : Nat) :
    List PerfStatistic → List (PerfStatistic × List Nat)
  | [] => []
  | s :: rest =>
    let event_counters := tryCreateAll createOk s (List.range cores)
    if event_counters.length = cores then
      (s, event_counters) :: buildPool createOk cores rest
    else
      buildPool createOk cores rest

/-- The `Perf` sampler state: the held configuration, the
statistic-to-per-core-handles pool, and the `initialized` registration
flag. -/
structure Perf where
  config : Config
  counters : List (PerfStatistic × List Nat)
  initialized : Bool
  deriving DecidableEq

/-- `Perf::new`: `Ok(None)` when the sampler is disabled; otherwise the
pool is built with `cores = hardware_threads().unwrap_or(1)` and the
sampler is returned as `Ok(Some(..))` with `initialized = false`.
`hardware_threads` is `none` when the host cannot determine the hardware
thread count. -/
def perfNew (config : Config) (hardware_threads : Option Nat)
    (createOk : PerfStatistic → Nat → Bool) : Except Unit (Option Perf) :=
  if config.perfEnabled then
    let cores := hardware_threads.getD 1
    Except.ok (some
      { config := config
        counters := buildPool createOk cores config.perfStatistics
        initialized := false })
  else
    Except.ok none

/-- One per-core read in `Perf::sample`: `counter.read()`, with a failed
read degraded to `0`. `read s c` is the oracle platform read of the
handle for statistic `s` on core `c`, `none` on failure. -/
def readCore (read : PerfStatistic → Nat → Option Nat) (s : PerfStatistic)
    (c : Nat) : Nat :=
  match read s c with
  | some v => v
  | none => 0

/-- `Perf::register`: when not initialized, call `register_counter` once
per tracked statistic (ceiling `TRILLION`, precision 3, the configured
window) and set the flag; otherwise do nothing. Returns the new state and
the recorder calls made, in order. -/
def Perf.register (p : Perf) : Perf × List Event :=
  if ! p.initialized then
    ({ p with initialized := true },
      p.counters.map (fun sc => Event.registerCh sc.1 TRILLION 3 p.config.window))
  else
    (p, [])

/-- `Perf::deregister`: when initialized, call `delete_channel` once per
tracked statistic and clear the flag; otherwise do nothing. -/
def Perf.deregister (p : Perf) : Perf × List Event :=
  if p.initialized then
    ({ p with initialized := false },
      p.counters.map (fun sc => Event.deleteCh sc.1))
  else
    (p, [])

/-- `Perf::sample`: read every per-core counter of every tracked
statistic into `current` (failed reads as 0), call `register` when not
yet initialized, then emit one `record_counter` per tracked statistic
whose key is found in `current`, with the summed value and the single
captured timestamp. Always returns `Ok(())`. `time` is the one
`time::precise_time_ns()` value captured at the start of the call; the
middle component is the ordered list of recorder calls. -/
def Perf.sample (p : Perf) (read : PerfStatistic → Nat → Option Nat)
    (time : Nat) : Perf × List Event × Except Unit Unit :=
  let current : List (PerfStatistic × List Nat) :=
    p.counters.map (fun sc => (sc.1, sc.2.map (readCore read sc.1)))
  let reg := if ! p.initialized then p.register else (p, [])
  let recEvents : List Event :=
    reg.1.counters.filterMap (fun sc =>
      (current.lookup sc.1).map (fun c => Event.record sc.1 time c.sum))
  (reg.1, reg.2 ++ recEvents, Except.ok ())

/-- Concrete fixture: an enabled configuration. -/
def cfgOn : Config := { perfEnabled := true, perfStatistics := [1, 2], window := 60 }

/-- Concrete fixture: a disabled configuration. -/
def cfgOff : Config := { perfEnabled := false, perfStatistics := [1, 2], window := 60 }

/-- Concrete fixture: an unregistered sampler tracking statistic 1 on one core. -/
def pU : Perf := { config := cfgOn, counters := [(1, [0])], initialized := false }

/-- Concrete fixture: a registered sampler tracking statistic 1 on one core. -/
def pR : Perf := { config := cfgOn, counters := [(1, [0])], initialized := true }

/-- Concrete fixture: an unregistered sampler tracking statistic 1 on two cores. -/
def pTwo : Perf := { config := cfgOn, counters := [(1, [0, 1])], initialized := false }

/-- Concrete fixture: a registered sampler tracking statistic 1 on two cores. -/
def pFail : Perf := { config := cfgOn, counters := [(1, [0, 1])], initialized := true }

/-- Concrete fixture: a read oracle that always returns 3. -/
def rd0 : PerfStatistic → Nat → Option Nat := fun _ _ => some 3

/-- Concrete fixture: a read oracle returning 3 on core 0 and 4 elsewhere. -/
def rdTwo : PerfStatistic → Nat → Option Nat := fun _ c => if c = 0 then some 3 else some 4

/-- Concrete fixture: a read oracle failing on core 0 and returning 5 elsewhere. -/
def rdFail : PerfStatistic → Nat → Option Nat := fun _ c => if c = 0 then none else some 5

theorem tryCreateAll_length_le (createOk : PerfStatistic → Nat → Bool)
    (s : PerfStatistic) (l : List Nat) :
    (tryCreateAll createOk s l).length ≤ l.length := by
  induction l with
  | nil => simp [tryCreateAll]
  | cons c rest ih =>
    by_cases h : createOk s c = true
    · simpa [tryCreateAll, h] using ih
    · simp [tryCreateAll, h]

theorem tryCreateAll_length_eq_iff (createOk : PerfStatistic → Nat → Bool)
    (s : PerfStatistic) (l : List Nat) :
    (tryCreateAll createOk s l).length = l.length ↔ l.all (createOk s) = true := by
  induction l with
  | nil => simp [tryCreateAll]
  | cons c rest ih =>
    by_cases h : createOk s c = true
    · simp [tryCreateAll, h, ih]
    · simp [tryCreateAll, h]

theorem buildPool_lookup_eq_none (createOk : PerfStatistic → Nat → Bool)
    (cores : Nat) (stats : List PerfStatistic) (s : PerfStatistic)
    (hfail : (List.range cores).all (createOk s) = false) :
    (buildPool createOk cores stats).lookup s = none := by
  induction stats with
  | nil => simp [buildPool, List.lookup]
  | cons a rest ih =>
    by_cases hlen : (tryCreateAll createOk a (List.range cores)).length = cores
    · have hne : (s == a) = false := by
        rw [beq_eq_false_iff_ne]
        intro he
        subst he
        have hok : (List.range cores).all (createOk s) = true :=
          (tryCreateAll_length_eq_iff createOk s (List.range cores)).mp
            (by simpa [List.length_range] using hlen)
        simp [hok] at hfail
      simp [buildPool, hlen, List.lookup, hne, ih]
    · simpa [buildPool, hlen] using ih

theorem buildPool_lookup_eq_some (createOk : PerfStatistic → Nat → Bool)
    (cores : Nat) (stats : List PerfStatistic) (s : PerfStatistic)
    (hmem : s ∈ stats) (hok : (List.range cores).all (createOk s) = true) :
    (buildPool createOk cores stats).lookup s =
      some (tryCreateAll createOk s (List.range cores)) := by
  induction stats with
  | nil => cases hmem
  | cons a rest ih =>
    by_cases he : s = a
    · subst he
      have hlen : (tryCreateAll createOk s (List.range cores)).length = cores := by
        have := (tryCreateAll_length_eq_iff createOk s (List.range cores)).mpr hok
        simpa [List.length_range] using this
      simp [buildPool, hlen, List.lookup]
    · have hmem2 : s ∈ rest := by
        rcases List.mem_cons.mp hmem with h | h
        · exact absurd h he
        · exact h
      have hne : (s == a) = false := by
        rw [beq_eq_false_iff_ne]
        exact he
      by_cases hlen : (tryCreateAll createOk a (List.range cores)).length = cores
      · simp [buildPool, hlen, List.lookup, hne, ih hmem2]
      · simp [buildPool, hlen, ih hmem2]

/-- C1: for every configured Statistic, if per-core handle creation
succeeds on every core index below `core_count`, the Statistic is present
in the pool built by `Perf::new` with exactly `core_count` handles; if
creation fails on some core, the Statistic is absent from the pool. -/
theorem c1_pool_all_or_nothing (createOk : PerfStatistic → Nat → Bool)
    (cores : Nat) (stats : List PerfStatistic) (s : PerfStatistic)
    (hmem : s ∈ stats) :
    (((List.range cores).all (createOk s) = true) →
      ∃ handles, (buildPool createOk cores stats).lookup s = some handles ∧
        handles.length = cores)
  ∧ (((List.range cores).all (createOk s) = false) →
      (buildPool createOk cores stats).lookup s = none) := by
  constructor
  · intro hok
    refine ⟨_, buildPool_lookup_eq_some createOk cores stats s hmem hok, ?_⟩
    have := (tryCreateAll_length_eq_iff createOk s (List.range cores)).mpr hok
    simpa [List.length_range] using this
  · intro hfail
    exact buildPool_lookup_eq_none createOk cores stats s hfail

/-- Witness for C1 at concrete inputs: statistic 7 succeeds on both of 2
cores and is present with 2 handles; statistic 9 fails on core 1 and is
absent. -/
theorem c1_pool_all_or_nothing_witness :
    (∃ handles, (buildPool (fun _ _ => true) 2 [7]).lookup 7 = some handles ∧
      handles.length = 2)
  ∧ (buildPool (fun _ c => c == 0) 2 [9]).lookup 9 = none :=
  ⟨(c1_pool_all_or_nothing (fun _ _ => true) 2 [7] 7 (by decide)).1 (by decide),
   (c1_pool_all_or_nothing (fun _ c => c == 0) 2 [9] 9 (by decide)).2 (by decide)⟩

theorem register_fst_counters (p : Perf) : (p.register).1.counters = p.counters := by
  by_cases h : p.initialized <;> simp [Perf.register, h]

theorem lookup_map_snd (g : PerfStatistic → List Nat → List Nat)
    (l : List (PerfStatistic × List Nat)) (s : PerfStatistic) (hs : List Nat)
    (hnd : (l.map Prod.fst).Nodup) (hmem : (s, hs) ∈ l) :
    (l.map (fun sc => (sc.1, g sc.1 sc.2))).lookup s = some (g s hs) := by
  induction l with
  | nil => cases hmem
  | cons a rest ih =>
    rcases List.mem_cons.mp hmem with he | hmem2
    · simp [← he, List.lookup]
    · have hkey : s ∈ rest.map Prod.fst := List.mem_map.mpr ⟨(s, hs), hmem2, rfl⟩
      have hne : (s == a.1) = false := by
        rw [beq_eq_false_iff_ne]
        intro he
        rw [List.map_cons, List.nodup_cons] at hnd
        exact hnd.1 (he ▸ hkey)
      have hnd2 : (rest.map Prod.fst).Nodup := by
        rw [List.map_cons, List.nodup_cons] at hnd
        exact hnd.2
      simp [List.lookup, hne, ih hnd2 hmem2]

/-- C2: for every Statistic tracked by the pool, the value recorded by
`sample` for that Statistic is the arithmetic sum of the per-core
readings obtained in that call, with failed reads contributing 0. -/
theorem c2_sum_exact (p : Perf) (read : PerfStatistic → Nat → Option Nat)
    (time : Nat) (s : PerfStatistic) (hs : List Nat)
    (hnd : (p.counters.map Prod.fst).Nodup) (hmem : (s, hs) ∈ p.counters) :
    Event.record s time ((hs.map (readCore read s)).sum) ∈
      (Perf.sample p read time).2.1 := by
  show _ ∈ _ ++ _
  refine List.mem_append.mpr (Or.inr ?_)
  refine List.mem_filterMap.mpr ⟨(s, hs), ?_, ?_⟩
  · by_cases h : p.initialized <;>
      simp [Perf.register, h, hmem]
  · have hcur :
        ((p.counters.map (fun sc => (sc.1, sc.2.map (readCore read sc.1)))).lookup s) =
          some (hs.map (readCore read s)) :=
      lookup_map_snd (fun a b => b.map (readCore read a)) p.counters s hs hnd hmem
    simp [hcur]

/-- Witness for C2 at concrete inputs: statistic 1 on cores `[0, 1]` with
reads 3 and 4 records their sum. -/
theorem c2_sum_exact_witness :
    Event.record 1 42 (([0, 1].map (readCore rdTwo 1)).sum) ∈
      (Perf.sample pTwo rdTwo 42).2.1 :=
  c2_sum_exact pTwo rdTwo 42 1 [0, 1] (by decide) (by decide)

theorem mem_recEvents_isRecord (l cur : List (PerfStatistic × List Nat))
    (t : Nat) (e : Event)
    (he : e ∈ l.filterMap (fun sc =>
      (cur.lookup sc.1).map (fun c => Event.record sc.1 t c.sum))) :
    Event.isRecord e = true := by
  rcases List.mem_filterMap.mp he with ⟨a, _, hfa⟩
  rcases Option.map_eq_some'.mp hfa with ⟨c, _, hc⟩
  rw [← hc]
  rfl

theorem isRegisterCh_eq_false_of_isRecord (e : Event)
    (h : Event.isRecord e = true) : Event.isRegisterCh e = false := by
  cases e <;> simp_all [Event.isRecord, Event.isRegisterCh]

/-- C3: a `sample` call on an unregistered sampler emits exactly one
`register_counter` call per tracked statistic, all of them before any
`record_counter` call of that tick; a `sample` call on an already
registered sampler emits no `register_counter` call at all. -/
theorem c3_lazy_registration (p : Perf) (read : PerfStatistic → Nat → Option Nat)
    (time : Nat) :
    (p.initialized = false →
      ∃ B, (Perf.sample p read time).2.1 =
          p.counters.map (fun sc => Event.registerCh sc.1 TRILLION 3 p.config.window) ++ B ∧
        ∀ e ∈ B, Event.isRecord e = true)
  ∧ (p.initialized = true →
      ∀ e ∈ (Perf.sample p read time).2.1, Event.isRegisterCh e = false) := by
  constructor
  · intro h
    refine ⟨p.counters.filterMap (fun sc =>
        ((p.counters.map (fun sc2 => (sc2.1, sc2.2.map (readCore read sc2.1)))).lookup sc.1).map
          (fun c => Event.record sc.1 time c.sum)), ?_, ?_⟩
    · simp [Perf.sample, Perf.register, h]
    · intro e he
      exact mem_recEvents_isRecord p.counters _ time e he
  · intro h e he
    have htr : (Perf.sample p read time).2.1 =
        p.counters.filterMap (fun sc =>
          ((p.counters.map (fun sc2 => (sc2.1, sc2.2.map (readCore read sc2.1)))).lookup sc.1).map
            (fun c => Event.record sc.1 time c.sum)) := by
      simp [Perf.sample, Perf.register, h]
    rw [htr] at he
    exact isRegisterCh_eq_false_of_isRecord e
      (mem_recEvents_isRecord p.counters _ time e he)

/-- Witness for C3 at concrete inputs: an unregistered one-statistic
sampler registers before it records, and a registered one emits no
registration call. -/
theorem c3_lazy_registration_witness :
    (∃ B, (Perf.sample pU rd0 5).2.1 =
        pU.counters.map (fun sc => Event.registerCh sc.1 TRILLION 3 pU.config.window) ++ B ∧
      ∀ e ∈ B, Event.isRecord e = true)
  ∧ (∀ e ∈ (Perf.sample pR rd0 5).2.1, Event.isRegisterCh e = false) :=
  ⟨(c3_lazy_registration pU rd0 5).1 rfl, (c3_lazy_registration pR rd0 5).2 rfl⟩

theorem length_filterMap_of_isSome {α β : Type} (f : α → Option β) (l : List α)
    (h : ∀ a ∈ l, (f a).isSome = true) : (l.filterMap f).length = l.length := by
  induction l with
  | nil => rfl
  | cons a rest ih =>
    rcases Option.isSome_iff_exists.mp (h a (List.mem_cons_self a rest)) with ⟨b, hb⟩
    simp [List.filterMap_cons, hb, ih (fun x hx => h x (List.mem_cons_of_mem a hx))]

theorem lookup_map_isSome (g : PerfStatistic → List Nat → List Nat)
    (l : List (PerfStatistic × List Nat)) (a : PerfStatistic × List Nat)
    (hmem : a ∈ l) :
    ((l.map (fun sc => (sc.1, g sc.1 sc.2))).lookup a.1).isSome = true := by
  induction l with
  | nil => cases hmem
  | cons b rest ih =>
    by_cases he : (a.1 == b.1) = true
    · simp [List.lookup, he]
    · rcases List.mem_cons.mp hmem with h1 | h2
      · rw [h1] at he
        simp at he
      · simp [List.lookup, he, ih h2]

theorem countP_recEvents (l cur : List (PerfStatistic × List Nat)) (t : Nat)
    (h : ∀ sc ∈ l, (cur.lookup sc.1).isSome = true) :
    (l.filterMap (fun sc =>
        (cur.lookup sc.1).map (fun c => Event.record sc.1 t c.sum))).countP
      (fun e => Event.isRecord e) = l.length := by
  rw [List.countP_eq_length.mpr (fun e he => mem_recEvents_isRecord l cur t e he)]
  refine length_filterMap_of_isSome _ l (fun a ha => ?_)
  have hx := h a ha
  cases hcc : cur.lookup a.1 with
  | none => rw [hcc] at hx; simp at hx
  | some c => simp [hcc]

/-- C4: every failed per-core read is degraded to 0, `sample` still emits
one recorded value per tracked statistic, and `sample` returns `Ok(())`
to its caller in every case. -/
theorem c4_degraded_reads (p : Perf) (read : PerfStatistic → Nat → Option Nat)
    (time : Nat) :
    (Perf.sample p read time).2.2 = Except.ok ()
  ∧ (∀ s c, read s c = none → readCore read s c = 0)
  ∧ (Perf.sample p read time).2.1.countP (fun e => Event.isRecord e) =
      p.counters.length := by
  refine ⟨rfl, fun s c h => by simp [readCore, h], ?_⟩
  have hsome : ∀ sc ∈ p.counters,
      (((p.counters.map (fun sc2 => (sc2.1, sc2.2.map (readCore read sc2.1)))).lookup
        sc.1).isSome) = true :=
    fun sc hsc => lookup_map_isSome (fun a b => b.map (readCore read a)) p.counters sc hsc
  by_cases h : p.initialized
  · have htr : (Perf.sample p read time).2.1 =
        p.counters.filterMap (fun sc =>
          ((p.counters.map (fun sc2 => (sc2.1, sc2.2.map (readCore read sc2.1)))).lookup sc.1).map
            (fun c => Event.record sc.1 time c.sum)) := by
      simp [Perf.sample, Perf.register, h]
    rw [htr, countP_recEvents _ _ _ hsome]
  · have htr : (Perf.sample p read time).2.1 =
        p.counters.map (fun sc => Event.registerCh sc.1 TRILLION 3 p.config.window) ++
          p.counters.filterMap (fun sc =>
            ((p.counters.map (fun sc2 => (sc2.1, sc2.2.map (readCore read sc2.1)))).lookup sc.1).map
              (fun c => Event.record sc.1 time c.sum)) := by
      simp [Perf.sample, Perf.register, h]
    rw [htr, List.countP_append, countP_recEvents _ _ _ hsome]
    have hz : (p.counters.map
        (fun sc => Event.registerCh sc.1 TRILLION 3 p.config.window)).countP
          (fun e => Event.isRecord e) = 0 := by
      rw [List.countP_eq_zero]
      intro e he
      rcases List.mem_map.mp he with ⟨a, _, hae⟩
      rw [← hae]
      simp [Event.isRecord]
    rw [hz]
    exact Nat.zero_add _

/-- Witness for C4 at concrete inputs: with a read oracle failing on core
0, the call still returns `Ok(())`, the failed read contributes 0, and
one value is recorded for the single tracked statistic. -/
theorem c4_degraded_reads_witness :
    (Perf.sample pFail rdFail 5).2.2 = Except.ok ()
  ∧ readCore rdFail 1 0 = 0
  ∧ (Perf.sample pFail rdFail 5).2.1.countP (fun e => Event.isRecord e) =
      pFail.counters.length :=
  ⟨(c4_degraded_reads pFail rdFail 5).1,
   (c4_degraded_reads pFail rdFail 5).2.1 1 0 (by decide),
   (c4_degraded_reads pFail rdFail 5).2.2⟩

/-- C5: `register` on an already registered sampler and `deregister` on
an already unregistered sampler are no-ops (state unchanged, no recorder
calls); the two operations are the only transitions and land on the two
states of the boolean flag. -/
theorem c5_idempotent_lifecycle (p : Perf) :
    (p.initialized = true → Perf.register p = (p, []))
  ∧ (p.initialized = false → Perf.deregister p = (p, []))
  ∧ (Perf.register p).1.initialized = true
  ∧ (Perf.deregister p).1.initialized = false := by
  refine ⟨fun h => ?_, fun h => ?_, ?_, ?_⟩
  · simp [Perf.register, h]
  · simp [Perf.deregister, h]
  · by_cases h : p.initialized <;> simp [Perf.register, h]
  · by_cases h : p.initialized <;> simp [Perf.deregister, h]

/-- Witness for C5 at concrete inputs: `register` on a registered sampler
and `deregister` on an unregistered one both return the state unchanged
with no recorder calls. -/
theorem c5_idempotent_lifecycle_witness :
    Perf.register pR = (pR, []) ∧ Perf.deregister pU = (pU, []) :=
  ⟨(c5_idempotent_lifecycle pR).1 rfl, (c5_idempotent_lifecycle pU).2.1 rfl⟩

/-- C6: every `record_counter` call emitted by one `sample` call carries
the single timestamp captured at the start of that call. -/
theorem c6_shared_timestamp (p : Perf) (read : PerfStatistic → Nat → Option Nat)
    (time : Nat) (s : PerfStatistic) (t : Nat) (v : Nat)
    (h : Event.record s t v ∈ (Perf.sample p read time).2.1) : t = time := by
  by_cases hi : p.initialized
  · have htr : (Perf.sample p read time).2.1 =
        p.counters.filterMap (fun sc =>
          ((p.counters.map (fun sc2 => (sc2.1, sc2.2.map (readCore read sc2.1)))).lookup sc.1).map
            (fun c => Event.record sc.1 time c.sum)) := by
      simp [Perf.sample, Perf.register, hi]
    rw [htr] at h
    rcases List.mem_filterMap.mp h with ⟨a, _, hfa⟩
    rcases Option.map_eq_some'.mp hfa with ⟨c, _, hc⟩
    injection hc with h1 h2 h3
    exact h2.symm
  · have htr : (Perf.sample p read time).2.1 =
        p.counters.map (fun sc => Event.registerCh sc.1 TRILLION 3 p.config.window) ++
          p.counters.filterMap (fun sc =>
            ((p.counters.map (fun sc2 => (sc2.1, sc2.2.map (readCore read sc2.1)))).lookup sc.1).map
              (fun c => Event.record sc.1 time c.sum)) := by
      simp [Perf.sample, Perf.register, hi]
    rw [htr] at h
    rcases List.mem_append.mp h with hreg | hrec
    · rcases List.mem_map.mp hreg with ⟨a, _, hae⟩
      cases hae
    · rcases List.mem_filterMap.mp hrec with ⟨a, _, hfa⟩
      rcases Option.map_eq_some'.mp hfa with ⟨c, _, hc⟩
      injection hc with h1 h2 h3
      exact h2.symm

/-- Witness for C6 at concrete inputs: the value recorded by a sample at
timestamp 42 carries timestamp 42. -/
theorem c6_shared_timestamp_witness :
    Event.record 1 42 3 ∈ (Perf.sample pU rd0 42).2.1 ∧ (42 : Nat) = 42 :=
  ⟨by decide, c6_shared_timestamp pU rd0 42 1 42 3 (by decide)⟩


/-- C7: when the configuration marks the sampler as disabled, `Perf::new`
returns `Ok(None)` (no instance, non-error); when enabled, it always
returns `Ok(Some(..))`, whatever statistics ended up in the pool. -/
theorem c7_disabled_absent (config : Config) (hw : Option Nat)
    (createOk : PerfStatistic → Nat → Bool) :
    (config.perfEnabled = false → perfNew config hw createOk = Except.ok none)
  ∧ (config.perfEnabled = true →
      ∃ p, perfNew config hw createOk = Except.ok (some p)) := by
  constructor
  · intro h
    simp [perfNew, h]
  · intro h
    refine ⟨{ config := config
              counters := buildPool createOk (hw.getD 1) config.perfStatistics
              initialized := false }, ?_⟩
    simp [perfNew, h]

/-- Witness for C7 at concrete inputs: a disabled configuration yields
`Ok(None)`, an enabled one yields `Ok(Some(..))`. -/
theorem c7_disabled_absent_witness :
    perfNew cfgOff none (fun _ _ => true) = Except.ok none
  ∧ (∃ p, perfNew cfgOn none (fun _ _ => true) = Except.ok (some p)) :=
  ⟨(c7_disabled_absent cfgOff none (fun _ _ => true)).1 rfl,
   (c7_disabled_absent cfgOn none (fun _ _ => true)).2 rfl⟩

/-- C8: when the hardware thread count cannot be determined, `Perf::new`
builds the pool with a core count of exactly 1 and still succeeds. -/
theorem c8_default_one_core (config : Config)
    (createOk : PerfStatistic → Nat → Bool) (h : config.perfEnabled = true) :
    perfNew config none createOk =
      Except.ok (some
        { config := config
          counters := buildPool createOk 1 config.perfStatistics
          initialized := false }) := by
  simp [perfNew, h]

/-- Witness for C8 at concrete inputs: an enabled configuration with no
hardware thread count builds the pool over exactly core 0. -/
theorem c8_default_one_core_witness :
    perfNew cfgOn none (fun _ _ => true) =
      Except.ok (some
        { config := cfgOn
          counters := buildPool (fun _ _ => true) 1 cfgOn.perfStatistics
          initialized := false }) :=
  c8_default_one_core cfgOn (fun _ _ => true) (by decide)

/-- C9: after every `sample` call the sampler is registered, whatever
state it started in. -/
theorem c9_registered_after_sample (p : Perf)
    (read : PerfStatistic → Nat → Option Nat) (time : Nat) :
    (Perf.sample p read time).1.initialized = true := by
  by_cases h : p.initialized <;> simp [Perf.sample, Perf.register, h]

/-- C10: `Perf::new` never returns its error variant: for every
configuration and oracle it returns `Ok`. -/
theorem c10_constructor_never_errs (config : Config) (hw : Option Nat)
    (createOk : PerfStatistic → Nat → Bool) :
    ∃ r, perfNew config hw createOk = Except.ok r := by
  by_cases h : config.perfEnabled
  · exact ⟨some { config := config
                  counters := buildPool createOk (hw.getD 1) config.perfStatistics
                  initialized := false }, by simp [perfNew, h]⟩
  · exact ⟨none, by simp [perfNew, h]⟩
